import Mathlib

set_option linter.unusedVariables false

/-!
Shallow embedding of the trading core of `deriv_webbot.py`: the per-trade
worker `trade_thread`, the shared transaction log and aggregate statistics
(`add_transaction`), the batch runner `run_bulk_batch` and the
`continuous_runner` loop.

Modelling conventions:
* JSON payloads parsed by `json.loads` are modelled by the inductive `JVal`;
  JSON numbers are rationals (the Python code only adds, subtracts and
  sign-compares them).
* Each websocket receive is an abstract event (`RawRecv`): the receive call
  raised, the frame failed to parse as JSON, or it parsed to a `JVal`.  A
  polling loop bounded by a wall-clock deadline is modelled by the finite
  list of events that arrive before its deadline; exhausting the list is the
  deadline elapsing.
* Python exceptions are modelled with `Except Unit`; the operations `in`,
  subscription, `.get`, `float(...)` and truthiness follow Python semantics
  (TypeError / KeyError / AttributeError / ValueError all collapse to the
  single error value, since `trade_thread` never distinguishes them).
* `float()` of a string is modelled for plain decimal literals
  (optional sign, digits, optional fractional part); exponent forms are
  treated as unparsable.  This only affects which traces take the
  exception path, never the value relations proved below.
* The threads of a batch append their outcome records under one lock; the
  batch model serialises the appends (the claims proved are about which
  records are appended, not their interleaving order).
* Debug logging (`debug_log_raw`) and `ws.close()` in the `finally` block
  have no effect on the transaction log or statistics and are omitted.
-/

namespace DerivBot

/-- JSON values as produced by `json.loads` on incoming websocket frames:
null, booleans, numbers (modelled as rationals), strings, arrays and
objects (field lists; `json.loads` yields unique keys). -/
inductive JVal where
  | jnull : JVal
  | jbool : Bool → JVal
  | jnum : ℚ → JVal
  | jstr : String → JVal
  | jarr : List JVal → JVal
  | jobj : List (String × JVal) → JVal

mutual

/-- Structural equality test on JSON values. -/
def JVal.beq : JVal → JVal → Bool
  | .jnull, .jnull => true
  | .jbool a, .jbool b => a == b
  | .jnum a, .jnum b => a == b
  | .jstr a, .jstr b => a == b
  | .jarr a, .jarr b => JVal.beqList a b
  | .jobj a, .jobj b => JVal.beqFields a b
  | _, _ => false

/-- Pointwise `JVal.beq` on lists. -/
def JVal.beqList : List JVal → List JVal → Bool
  | [], [] => true
  | x :: xs, y :: ys => JVal.beq x y && JVal.beqList xs ys
  | _, _ => false

/-- Pointwise `JVal.beq` on field lists. -/
def JVal.beqFields : List (String × JVal) → List (String × JVal) → Bool
  | [], [] => true
  | (k, x) :: xs, (l, y) :: ys => k == l && JVal.beq x y && JVal.beqFields xs ys
  | _, _ => false

end

instance : BEq JVal := ⟨JVal.beq⟩

mutual

/-- Normalisation used to model Python `==`, under which booleans compare
equal to the numbers 0 and 1 (also inside containers). -/
def JVal.norm : JVal → JVal
  | .jbool b => .jnum (if b then 1 else 0)
  | .jarr xs => .jarr (JVal.normList xs)
  | .jobj fs => .jobj (JVal.normFields fs)
  | v => v

/-- Pointwise `JVal.norm` on lists. -/
def JVal.normList : List JVal → List JVal
  | [] => []
  | x :: xs => JVal.norm x :: JVal.normList xs

/-- Pointwise `JVal.norm` on field lists. -/
def JVal.normFields : List (String × JVal) → List (String × JVal)
  | [] => []
  | (k, v) :: fs => (k, JVal.norm v) :: JVal.normFields fs

end

/-- Python `==` on JSON values (structural equality up to bool/number
coercion). -/
def pyEq (a b : JVal) : Bool := JVal.beq a.norm b.norm

/-- Substring test, modelling Python `pat in s` on strings for non-empty
`pat` (the keys tested by the code are all non-empty literals). -/
def strContains (s pat : String) : Bool := (s.splitOn pat).length ≠ 1

/-- Python `k in j` for a string `k`: key membership on dicts, substring
test on strings, element membership on lists; TypeError (modelled as
`Except.error`) on null, booleans and numbers. -/
def pyIn (k : String) : JVal → Except Unit Bool
  | .jstr s => .ok (strContains s k)
  | .jarr xs => .ok (xs.any (fun x => JVal.beq x (.jstr k)))
  | .jobj fs => .ok (fs.any (fun p => p.1 == k))
  | _ => .error ()

/-- Python subscription `j[k]` with a string key: dict lookup (KeyError
when absent), TypeError on every other value. -/
def pySub (j : JVal) (k : String) : Except Unit JVal :=
  match j with
  | .jobj fs =>
    match fs.lookup k with
    | some v => .ok v
    | none => .error ()
  | _ => .error ()

/-- Python `j.get(k, d)`: only dicts have `.get`; AttributeError on every
other value. -/
def pyGetD (j : JVal) (k : String) (d : JVal) : Except Unit JVal :=
  match j with
  | .jobj fs => .ok ((fs.lookup k).getD d)
  | _ => .error ()

/-- Python `j.get(k)` (default `None`). -/
def pyGet (j : JVal) (k : String) : Except Unit JVal := pyGetD j k .jnull

/-- Whether a JSON object carries a field named `k` (used to state which
keys a built request contains). -/
def JVal.hasField (j : JVal) (k : String) : Bool :=
  match j with
  | .jobj fs => fs.any (fun p => p.1 == k)
  | _ => false

/-- Python truthiness of a JSON value. -/
def pyTruthy : JVal → Bool
  | .jnull => false
  | .jbool b => b
  | .jnum q => q != 0
  | .jstr s => s != ""
  | .jarr xs => !xs.isEmpty
  | .jobj fs => !fs.isEmpty

/-- Value of a digit string under base-10 accumulation. -/
def natOfDigits (cs : List Char) : ℕ := cs.foldl (fun n c => 10 * n + (c.toNat - 48)) 0

/-- Parse a plain decimal literal (optional sign, digits, optional
fractional part), the subset of Python `float(str)` inputs modelled here. -/
def parseFloat (s : String) : Option ℚ :=
  let t := s.trim
  let body : List Char :=
    match t.data with
    | '-' :: cs => cs
    | '+' :: cs => cs
    | cs => cs
  let sgn : ℚ :=
    match t.data with
    | '-' :: _ => -1
    | _ => 1
  match (String.mk body).splitOn "." with
  | [a] =>
    if !a.data.isEmpty && a.data.all Char.isDigit then
      some (sgn * (natOfDigits a.data : ℚ))
    else none
  | [a, b] =>
    if (a.data.all Char.isDigit && b.data.all Char.isDigit)
        && !(a.data.isEmpty && b.data.isEmpty) then
      some (sgn * ((natOfDigits a.data : ℚ)
        + (natOfDigits b.data : ℚ) / ((10 : ℚ) ^ b.data.length)))
    else none
  | _ => none

/-- Python `float(v)`: numbers pass through, booleans coerce to 0/1,
decimal strings parse, everything else raises. -/
def pyFloat : JVal → Except Unit ℚ
  | .jnum q => .ok q
  | .jbool b => .ok (if b then 1 else 0)
  | .jstr s =>
    match parseFloat s with
    | some q => .ok q
    | none => .error ()
  | _ => .error ()

/-- Python `a or b` under lazy evaluation: evaluate `a`; when truthy its
value is the result, otherwise evaluate `b`. -/
def pyOr (a b : Except Unit JVal) : Except Unit JVal :=
  match a with
  | .error e => .error e
  | .ok va => if pyTruthy va then .ok va else b

/-- Model of the idiom `float(d.get(k, 0) or 0)` used for all price
fields. -/
def getFloat0 (d : JVal) (k : String) : Except Unit ℚ :=
  match pyGetD d k (.jnum 0) with
  | .error e => .error e
  | .ok v => pyFloat (if pyTruthy v then v else .jnum 0)

/-- Status of a recorded transaction, modelling the `status` strings
written by the source: `Win`, `Loss`, `Even`, `AuthError: ...`,
`ProposalError: ...`, `BuyError: ...`, `NoSettlement`, `Exception:...`,
the local initial value `Unknown`, and the three marker statuses
written by `run_bulk_batch` and `continuous_runner`. -/
inductive Status where
  | Win : Status
  | Loss : Status
  | Even : Status
  | AuthError : JVal → Status
  | ProposalError : JVal → Status
  | BuyError : JVal → Status
  | NoSettlement : Status
  | Exception : Status
  | Unknown : Status
  | Starting : String → Status
  | Finished : String → Status
  | Stopped : Status

/-- The `trade_no` field: a numbered trade or one of the three marker
forms (`BatchStart_{ts}`, `BatchEnd`, `System`). -/
inductive TradeNo where
  | num : ℕ → TradeNo
  | batchStart : String → TradeNo
  | batchEnd : TradeNo
  | system : TradeNo

/-- A record appended to `st.session_state.transactions`. -/
structure Txn where
  trade_no : TradeNo
  entry : JVal
  exit : JVal
  stake : ℚ
  payout : ℚ
  pl : ℚ
  status : Status

/-- The `st.session_state.stats` dictionary. -/
structure Stats where
  stake_total : ℚ
  payout_total : ℚ
  wins : ℕ
  losses : ℕ
  profit : ℚ
deriving DecidableEq

/-- The session defaults for `stats` (line 23 of the source). -/
def init_stats : Stats :=
  { stake_total := 0, payout_total := 0, wins := 0, losses := 0, profit := 0 }

/-- The shared session state touched by `add_transaction`: the
transaction log and the aggregate statistics. -/
structure SessionState where
  transactions : List Txn
  stats : Stats

/-- The session defaults: empty log, zero statistics. -/
def init_state : SessionState := { transactions := [], stats := init_stats }

/-- Embedding of `add_transaction` (lines 95-105): append the record and
update the aggregates under the lock.  Every call site passes all keys,
with numeric `stake`, `payout` and `pl`, so `float(tr.get(k, 0) or 0)`
is the field itself (0 maps to 0 under `x or 0`). -/
def add_transaction (st : SessionState) (tr : Txn) : SessionState :=
  { transactions := st.transactions ++ [tr]
    stats :=
      { stake_total := st.stats.stake_total + tr.stake
        payout_total := st.stats.payout_total + tr.payout
        profit := st.stats.profit + tr.pl
        wins := if 0 < tr.pl then st.stats.wins + 1 else st.stats.wins
        losses := if tr.pl < 0 then st.stats.losses + 1 else st.stats.losses } }

/-- A record is a marker (batch start/end or the stop record) rather than
a numbered trade outcome. -/
def isMarker (t : Txn) : Bool :=
  match t.trade_no with
  | .num _ => false
  | _ => true

/-- Test for the terminal stop record's status. -/
def isStopped (t : Txn) : Bool :=
  match t.status with
  | .Stopped => true
  | _ => false

/-- One receive event on the trade's websocket: the receive call raised
(timeout or I/O error), the frame was not valid JSON, or it parsed to a
JSON value. -/
inductive RawRecv where
  | exn : RawRecv
  | parseFail : RawRecv
  | val : JVal → RawRecv

/-- A request written to the websocket by `trade_thread`. -/
inductive SentMsg where
  | authReq : String → SentMsg
  | proposalReq : JVal → SentMsg
  | buyReq : JVal → SentMsg

/-- The environment of one `trade_thread` run: whether `connect` and each
`send` raise, the authorize response (received outside any try block), and
the event lists seen by the proposal wait loop (6 s), the buy wait loop
(6 s) and the settlement wait loop (`timeout`, default 25 s); each list
holds the events arriving before that loop's deadline. -/
structure TradeInput where
  connectErr : Bool
  authSendErr : Bool
  authRecv : RawRecv
  propSendErr : Bool
  propEvents : List RawRecv
  buySendErr : Bool
  buyEvents : List RawRecv
  settleEvents : List RawRecv

/-- The mutable locals of `trade_thread` that feed the outcome record:
`entry`, `exit_`, `payout`, `pl` (lines 139-142). -/
structure Locals where
  entry : JVal := .jstr "-"
  exit : JVal := .jstr "-"
  payout : ℚ := 0
  pl : ℚ := 0

/-- The initial locals: entry "-", exit "-", payout 0.0, pl 0.0. -/
def initLocals : Locals := {}

/-- Status classification `"Win" if pl > 0 else ("Loss" if pl < 0 else
"Even")` used on every settlement branch. -/
def classify (pl : ℚ) : Status :=
  if 0 < pl then .Win else if pl < 0 then .Loss else .Even

/-- The record passed to `add_transaction` by `trade_thread`: trade
number, current locals, the stake parameter, and a status. -/
def mk_txn (tn : ℕ) (stake : ℚ) (l : Locals) (s : Status) : Txn :=
  { trade_no := .num tn, entry := l.entry, exit := l.exit, stake := stake
    payout := l.payout, pl := l.pl, status := s }

/-- The authorize request (line 151). -/
def auth_req (token : String) : JVal := .jobj [("authorize", .jstr token)]

/-- The digit-threshold contract types that require a barrier
(line 175). -/
def DIGIT_BARRIER_TYPES : List String :=
  ["DIGITMATCH", "DIGITDIFF", "DIGITOVER", "DIGITUNDER"]

/-- The proposal request built at lines 165-176: the fixed fields, plus
`barrier = str(digit)` exactly for the digit-threshold contract types. -/
def build_proposal (symbol contract_type : String) (stake : ℚ) (digit : ℤ) : JVal :=
  let base : List (String × JVal) :=
    [("proposal", .jnum 1), ("amount", .jnum stake), ("basis", .jstr "stake"),
     ("symbol", .jstr symbol), ("contract_type", .jstr contract_type),
     ("currency", .jstr "USD"), ("duration", .jnum 1), ("duration_unit", .jstr "t")]
  if DIGIT_BARRIER_TYPES.contains contract_type then
    .jobj (base ++ [("barrier", .jstr (toString digit))])
  else
    .jobj base

/-- The buy request `{"buy": proposal_id}` (line 215). -/
def buy_req (pid : JVal) : JVal := .jobj [("buy", pid)]

/-- The proposal wait loop (lines 183-200): skip receive failures and
unparsable frames; the first message carrying `proposal` (or, failing
that, `error`) wins; exhausting the events is the 6 s deadline, leaving
`proposal_resp = None`.  An error escaping the membership test or the
subscription propagates (modelled as `Except.error`). -/
def prop_loop : List RawRecv → Except Unit (Option JVal)
  | [] => .ok none
  | .exn :: rest => prop_loop rest
  | .parseFail :: rest => prop_loop rest
  | .val j :: rest =>
    match pyIn "proposal" j with
    | .error e => .error e
    | .ok true =>
      match pySub j "proposal" with
      | .error e => .error e
      | .ok p => .ok (some p)
    | .ok false =>
      match pyIn "error" j with
      | .error e => .error e
      | .ok true =>
        match pySub j "error" with
        | .error e => .error e
        | .ok err => .ok (some (.jobj [("error", err)]))
      | .ok false => prop_loop rest

/-- The buy wait loop (lines 220-239): the first message carrying `buy`
sets `buy_resp` and extracts `contract_id or contract`; a message
carrying `error` sets an error response with `contract_id` left `None`;
exhaustion leaves both `None`. -/
def buy_loop : List RawRecv → Except Unit (Option JVal × JVal)
  | [] => .ok (none, .jnull)
  | .exn :: rest => buy_loop rest
  | .parseFail :: rest => buy_loop rest
  | .val j :: rest =>
    match pyIn "buy" j with
    | .error e => .error e
    | .ok true =>
      match pySub j "buy" with
      | .error e => .error e
      | .ok br =>
        match pyOr (pyGet br "contract_id") (pyGet br "contract") with
        | .error e => .error e
        | .ok cid => .ok (some br, cid)
    | .ok false =>
      match pyIn "error" j with
      | .error e => .error e
      | .ok true =>
        match pySub j "error" with
        | .error e => .error e
        | .ok err => .ok (some (.jobj [("error", err)]), .jnull)
      | .ok false => buy_loop rest

/-- The `proposal_open_contract` settlement branch (lines 264-276): on an
id match compute the buy price, and when the contract is sold (the
`is_sold` flag or `status == "sold"`) settle with
`pl = sell_price - buy_price` and the tick fields; `some` means the loop
breaks with the new locals and status, `none` means fall through. -/
def poc_branch (cid poc : JVal) : Except Unit (Option (Locals × Status)) :=
  if pyTruthy cid then
    match pyGet poc "contract_id" with
    | .error e => .error e
    | .ok pcid =>
      if pyEq pcid cid then
        match getFloat0 poc "buy_price" with
        | .error e => .error e
        | .ok buy_price =>
          match pyGet poc "is_sold" with
          | .error e => .error e
          | .ok sold =>
            match pyGet poc "status" with
            | .error e => .error e
            | .ok stat =>
              if pyTruthy sold || pyEq stat (.jstr "sold") then
                match getFloat0 poc "sell_price" with
                | .error e => .error e
                | .ok sell_price =>
                  match pyGetD poc "entry_tick" (.jstr "-") with
                  | .error e => .error e
                  | .ok entry =>
                    match pyGetD poc "exit_tick" (.jstr "-") with
                    | .error e => .error e
                    | .ok ex =>
                      .ok (some ({ entry := entry, exit := ex,
                                   payout := sell_price,
                                   pl := sell_price - buy_price },
                                 classify (sell_price - buy_price)))
              else .ok none
      else .ok none
  else .ok none

/-- The `contract` settlement branch (lines 277-288): on an id match
(`contract_id` or `id`) settle unconditionally with
`pl = sell_price - buy_price` and the tick fields. -/
def contract_branch (cid c : JVal) : Except Unit (Option (Locals × Status)) :=
  if pyTruthy cid then
    match pyGet c "contract_id" with
    | .error e => .error e
    | .ok c1 =>
      match (if pyEq c1 cid then .ok true else
              match pyGet c "id" with
              | .error e => .error e
              | .ok c2 => .ok (pyEq c2 cid) : Except Unit Bool) with
      | .error e => .error e
      | .ok cond =>
        if cond then
          match getFloat0 c "buy_price" with
          | .error e => .error e
          | .ok buy_price =>
            match getFloat0 c "sell_price" with
            | .error e => .error e
            | .ok sell_price =>
              match pyGetD c "entry_tick" (.jstr "-") with
              | .error e => .error e
              | .ok entry =>
                match pyGetD c "exit_tick" (.jstr "-") with
                | .error e => .error e
                | .ok ex =>
                  .ok (some ({ entry := entry, exit := ex,
                               payout := sell_price,
                               pl := sell_price - buy_price },
                             classify (sell_price - buy_price)))
        else .ok none
  else .ok none

/-- The `sell` settlement branch (lines 289-295): channel-level, not
id-matched; `payout = float(s.get("sell_price", s.get("profit", 0)) or 0)`
and `pl = payout`, leaving the tick fields as they were. -/
def sell_branch (s : JVal) (l : Locals) : Except Unit (Locals × Status) :=
  match pyGetD s "profit" (.jnum 0) with
  | .error e => .error e
  | .ok inner =>
    match pyGetD s "sell_price" inner with
    | .error e => .error e
    | .ok v =>
      match pyFloat (if pyTruthy v then v else .jnum 0) with
      | .error e => .error e
      | .ok payout =>
        .ok ({ l with payout := payout, pl := payout }, classify payout)

/-- Dispatch of one parsed message to the `proposal_open_contract`
branch. -/
def step_poc (cid j : JVal) : Except Unit (Option (Locals × Status)) :=
  match pyIn "proposal_open_contract" j with
  | .error e => .error e
  | .ok true =>
    match pySub j "proposal_open_contract" with
    | .error e => .error e
    | .ok poc => poc_branch cid poc
  | .ok false => .ok none

/-- Dispatch of one parsed message to the `contract` branch. -/
def step_contract (cid j : JVal) : Except Unit (Option (Locals × Status)) :=
  match pyIn "contract" j with
  | .error e => .error e
  | .ok true =>
    match pySub j "contract" with
    | .error e => .error e
    | .ok c => contract_branch cid c
  | .ok false => .ok none

/-- Dispatch of one parsed message to the `sell` branch. -/
def step_sell (j : JVal) (l : Locals) : Except Unit (Option (Locals × Status)) :=
  match pyIn "sell" j with
  | .error e => .error e
  | .ok true =>
    match pySub j "sell" with
    | .error e => .error e
    | .ok s =>
      match sell_branch s l with
      | .error e => .error e
      | .ok r => .ok (some r)
  | .ok false => .ok none

/-- The settlement wait loop (lines 252-295).  The three branch checks are
sequential on each message, a `break` carries the updated locals and
classified status, exhaustion is the timeout (status stays `Unknown`), and
a raising branch aborts with the locals held at that moment. -/
def settle_loop (cid : JVal) : List RawRecv → Locals → Except Locals (Locals × Status)
  | [], l => .ok (l, .Unknown)
  | .exn :: rest, l => settle_loop cid rest l
  | .parseFail :: rest, l => settle_loop cid rest l
  | .val j :: rest, l =>
    match step_poc cid j with
    | .error _ => .error l
    | .ok (some r) => .ok r
    | .ok none =>
      match step_contract cid j with
      | .error _ => .error l
      | .ok (some r) => .ok r
      | .ok none =>
        match step_sell j l with
        | .error _ => .error l
        | .ok (some r) => .ok r
        | .ok none => settle_loop cid rest l

/-- Control outcome of the pre-settlement part of the worker body: a
normal return after recording `t`, an exception escaping with the current
locals, or reaching the settlement wait with the extracted contract id. -/
inductive Ctl where
  | ret : Txn → Ctl
  | exn : Locals → Ctl
  | next : JVal → Ctl

/-- The worker body up to the settlement wait (lines 146-250): connect,
authorize, build and send the proposal, await the proposal response, send
the buy request, await the buy response.  Returns the sent requests and
the control outcome. -/
def stages123 (api_token symbol contract_type : String) (stake : ℚ) (digit : ℤ)
    (trade_no : ℕ) (inp : TradeInput) : List SentMsg × Ctl :=
  if inp.connectErr then ([], .exn initLocals) else
  let sent0 : List SentMsg := [.authReq api_token]
  if inp.authSendErr then (sent0, .exn initLocals) else
  match inp.authRecv with
  | .exn => (sent0, .exn initLocals)
  | .parseFail => (sent0, .exn initLocals)
  | .val auth_resp =>
    match pyIn "error" auth_resp with
    | .error _ => (sent0, .exn initLocals)
    | .ok true =>
      match pySub auth_resp "error" with
      | .error _ => (sent0, .exn initLocals)
      | .ok e => (sent0, .ret (mk_txn trade_no stake initLocals (.AuthError e)))
    | .ok false =>
      let proposal := build_proposal symbol contract_type stake digit
      let sent1 := sent0 ++ [.proposalReq proposal]
      if inp.propSendErr then (sent1, .exn initLocals) else
      match prop_loop inp.propEvents with
      | .error _ => (sent1, .exn initLocals)
      | .ok none =>
        (sent1, .ret (mk_txn trade_no stake initLocals
          (.ProposalError (.jobj [("message", .jstr "No proposal")]))))
      | .ok (some p) =>
        if !pyTruthy p then
          (sent1, .ret (mk_txn trade_no stake initLocals
            (.ProposalError (.jobj [("message", .jstr "No proposal")]))))
        else
          match pyIn "error" p with
          | .error _ => (sent1, .exn initLocals)
          | .ok true =>
            match pyGet p "error" with
            | .error _ => (sent1, .exn initLocals)
            | .ok err => (sent1, .ret (mk_txn trade_no stake initLocals (.ProposalError err)))
          | .ok false =>
            match pyOr (pyOr (pyGet p "id") (pyGet p "proposal")) (pyGet p "proposal_id") with
            | .error _ => (sent1, .exn initLocals)
            | .ok proposal_id =>
              let sent2 := sent1 ++ [.buyReq (buy_req proposal_id)]
              if inp.buySendErr then (sent2, .exn initLocals) else
              match buy_loop inp.buyEvents with
              | .error _ => (sent2, .exn initLocals)
              | .ok (none, _) =>
                (sent2, .ret (mk_txn trade_no stake initLocals
                  (.BuyError (.jobj [("message", .jstr "No buy response")]))))
              | .ok (some br, contract_id) =>
                if !pyTruthy br then
                  (sent2, .ret (mk_txn trade_no stake initLocals
                    (.BuyError (.jobj [("message", .jstr "No buy response")]))))
                else
                  match pyIn "error" br with
                  | .error _ => (sent2, .exn initLocals)
                  | .ok true =>
                    match pyGet br "error" with
                    | .error _ => (sent2, .exn initLocals)
                    | .ok err => (sent2, .ret (mk_txn trade_no stake initLocals (.BuyError err)))
                  | .ok false => (sent2, .next contract_id)

/-- The full `try` body of `trade_thread` (lines 146-309): the sent
requests, the records passed to `add_transaction` inside the body, and
`some l` when an exception escapes the body with locals `l`. -/
def trade_body (api_token symbol contract_type : String) (stake : ℚ) (digit : ℤ)
    (trade_no : ℕ) (inp : TradeInput) : List SentMsg × List Txn × Option Locals :=
  match stages123 api_token symbol contract_type stake digit trade_no inp with
  | (sent, .ret t) => (sent, [t], none)
  | (sent, .exn l) => (sent, [], some l)
  | (sent, .next contract_id) =>
    match settle_loop contract_id inp.settleEvents initLocals with
    | .error l => (sent, [], some l)
    | .ok (l, .Unknown) => (sent, [mk_txn trade_no stake l .NoSettlement], none)
    | .ok (l, s) => (sent, [mk_txn trade_no stake l s], none)

/-- Embedding of `trade_thread` (lines 138-322): run the body; an escaping
exception is caught by the handler at lines 311-316, which records an
`Exception` outcome from the locals at the raise.  Returns the sent
requests and the records appended to the transaction log. -/
def trade_thread (api_token symbol contract_type : String) (stake : ℚ) (digit : ℤ)
    (trade_no : ℕ) (inp : TradeInput) : List SentMsg × List Txn :=
  match trade_body api_token symbol contract_type stake digit trade_no inp with
  | (sent, txns, none) => (sent, txns)
  | (sent, txns, some l) => (sent, txns ++ [mk_txn trade_no stake l Status.Exception])

/-- The proposal payloads among a list of sent requests. -/
def sentProposals (ms : List SentMsg) : List JVal :=
  ms.filterMap (fun m => match m with | .proposalReq p => some p | _ => none)

/-- The batch-start marker record (line 330): zero stake, payout and pl. -/
def batch_start_txn (ts : String) : Txn :=
  { trade_no := .batchStart ts, entry := .jstr "-", exit := .jstr "-",
    stake := 0, payout := 0, pl := 0, status := .Starting ts }

/-- The batch-end marker record (line 338): zero stake, payout and pl. -/
def batch_end_txn (ts : String) : Txn :=
  { trade_no := .batchEnd, entry := .jstr "-", exit := .jstr "-",
    stake := 0, payout := 0, pl := 0, status := .Finished ts }

/-- The terminal stop record of `continuous_runner` (line 349). -/
def stopped_txn : Txn :=
  { trade_no := .system, entry := .jstr "-", exit := .jstr "-",
    stake := 0, payout := 0, pl := 0, status := .Stopped }

/-- The environment of one batch: the two marker timestamps and the
websocket environment of each spawned trade. -/
structure BatchEnv where
  ts1 : String
  ts2 : String
  inputs : ℕ → TradeInput

/-- `run_bulk_batch` generalised over the trade count `n` (the source
fixes `range(1, 11)`, i.e. `n = 10`): append the start marker, run the
workers for trade numbers 1..n (their outcome records are appended under
the session lock; this model serialises the appends in launch order),
then append the end marker. -/
def run_bulk_batchN (n : ℕ) (env : BatchEnv) (api_token symbol contract_type : String)
    (stake : ℚ) (digit : ℤ) (st : SessionState) : SessionState :=
  let st1 := add_transaction st (batch_start_txn env.ts1)
  let st2 := (List.range' 1 n).foldl
    (fun s i =>
      ((trade_thread api_token symbol contract_type stake digit i (env.inputs i)).2).foldl
        add_transaction s) st1
  add_transaction st2 (batch_end_txn env.ts2)

/-- Embedding of `run_bulk_batch` (lines 327-338): ten trades per batch. -/
def run_bulk_batch (env : BatchEnv) (api_token symbol contract_type : String)
    (stake : ℚ) (digit : ℤ) (st : SessionState) : SessionState :=
  run_bulk_batchN 10 env api_token symbol contract_type stake digit st

/-- Embedding of `continuous_runner` (lines 343-349).  The run flag is
read once at the top of each iteration; `k` is the number of reads that
observed `true` before the first `false` (each true read runs one full
batch, then the 0.8 s pause), and the false read exits the loop and
appends the stop record. -/
def continuous_runner (api_token symbol contract_type : String) (stake : ℚ) (digit : ℤ) :
    ℕ → (ℕ → BatchEnv) → SessionState → SessionState
  | 0, _, st => add_transaction st stopped_txn
  | k + 1, envs, st =>
    continuous_runner api_token symbol contract_type stake digit k
      (fun i => envs (i + 1))
      (run_bulk_batch (envs 0) api_token symbol contract_type stake digit st)

/-- A contiguous block of records produced by one complete batch: the
start marker, then only numbered trade outcomes, then the end marker. -/
def IsBatchBlock (b : List Txn) : Prop :=
  ∃ ts1 ts2 mids, b = batch_start_txn ts1 :: (mids ++ [batch_end_txn ts2])
    ∧ ∀ t ∈ mids, isMarker t = false

/-- Example environment: the connect call raises at once. -/
def connFailInput : TradeInput :=
  { connectErr := true, authSendErr := false, authRecv := .exn,
    propSendErr := false, propEvents := [], buySendErr := false,
    buyEvents := [], settleEvents := [] }

/-- Example environment: authorization, proposal and buy all succeed and
the settlement wait then sees a channel-level `sell` confirmation whose
payload carries `sell_price` 5 and `buy_price` 3. -/
def sellCexInput : TradeInput :=
  { connectErr := false, authSendErr := false,
    authRecv := .val (.jobj [("authorize", .jobj [("loginid", .jstr "CR1")])]),
    propSendErr := false,
    propEvents := [.val (.jobj [("proposal", .jobj [("id", .jstr "P1")])])],
    buySendErr := false,
    buyEvents := [.val (.jobj [("buy", .jobj [("contract_id", .jstr "C1")])])],
    settleEvents := [.val (.jobj [("sell",
      .jobj [("sell_price", .jnum 5), ("buy_price", .jnum 3)])])] }

/-- Example environment: authorization, proposal and buy all succeed and
the settlement wait times out with no event at all. -/
def noSettleInput : TradeInput :=
  { connectErr := false, authSendErr := false,
    authRecv := .val (.jobj [("authorize", .jobj [("loginid", .jstr "CR1")])]),
    propSendErr := false,
    propEvents := [.val (.jobj [("proposal", .jobj [("id", .jstr "P1")])])],
    buySendErr := false,
    buyEvents := [.val (.jobj [("buy", .jobj [("contract_id", .jstr "C1")])])],
    settleEvents := [] }

/-- Example environment: the authorize response carries an error
payload. -/
def authErrInput : TradeInput :=
  { connectErr := false, authSendErr := false,
    authRecv := .val (.jobj [("error",
      .jobj [("code", .jstr "InvalidToken"), ("message", .jstr "bad token")])]),
    propSendErr := false, propEvents := [], buySendErr := false,
    buyEvents := [], settleEvents := [] }

/-- Example batch environment: every trade fails to connect. -/
def connFailEnv : BatchEnv :=
  { ts1 := "10:00:00", ts2 := "10:00:05", inputs := fun _ => connFailInput }

/-- Classification yields Win exactly on positive profit. -/
theorem classify_win_iff (q : ℚ) : classify q = .Win ↔ 0 < q := by
  unfold classify
  split_ifs with h1 h2 <;> simp_all

/-- Classification yields Loss exactly on negative profit. -/
theorem classify_loss_iff (q : ℚ) : classify q = .Loss ↔ q < 0 := by
  unfold classify
  split_ifs with h1 h2 <;> simp_all
  linarith

/-- Classification yields Even exactly on zero profit. -/
theorem classify_even_iff (q : ℚ) : classify q = .Even ↔ q = 0 := by
  unfold classify
  split_ifs with h1 h2 <;> simp_all <;> linarith

/-- Classification never returns the initial `Unknown` value. -/
theorem classify_ne_unknown (q : ℚ) : classify q ≠ .Unknown := by
  unfold classify
  split_ifs <;> simp

/-- A `proposal_open_contract` settlement carries status classified from
its profit, with `pl = payout - buy_price`. -/
theorem poc_branch_spec {cid poc : JVal} {l : Locals} {s : Status}
    (h : poc_branch cid poc = .ok (some (l, s))) :
    s = classify l.pl ∧
      ∃ bp, getFloat0 poc "buy_price" = .ok bp
        ∧ getFloat0 poc "sell_price" = .ok l.payout ∧ l.pl = l.payout - bp := by
  unfold poc_branch at h
  repeat' split at h
  all_goals try simp_all [classify]
  obtain ⟨h1, h2⟩ := h
  subst h1
  subst h2
  simp [sub_pos, sub_neg]

/-- A `contract` settlement carries status classified from its profit,
with `pl = payout - buy_price`. -/
theorem contract_branch_spec {cid c : JVal} {l : Locals} {s : Status}
    (h : contract_branch cid c = .ok (some (l, s))) :
    s = classify l.pl ∧
      ∃ bp, getFloat0 c "buy_price" = .ok bp
        ∧ getFloat0 c "sell_price" = .ok l.payout ∧ l.pl = l.payout - bp := by
  unfold contract_branch at h
  repeat' split at h
  all_goals try simp_all [classify]
  obtain ⟨h1, h2⟩ := h
  subst h1
  subst h2
  simp [sub_pos, sub_neg]

/-- A `sell` settlement sets `pl = payout` (ignoring any buy price) and
classifies from that profit, leaving the tick fields untouched. -/
theorem sell_branch_spec {sm : JVal} {l0 l : Locals} {s : Status}
    (h : sell_branch sm l0 = .ok (l, s)) :
    s = classify l.pl ∧ l.pl = l.payout ∧ l.entry = l0.entry ∧ l.exit = l0.exit := by
  unfold sell_branch at h
  repeat' split at h
  all_goals try simp_all [classify]
  obtain ⟨h1, h2⟩ := h
  subst h1
  subst h2
  simp

/-- A message dispatched to the open-contract branch that breaks the loop
carries a status classified from the new profit. -/
theorem step_poc_status {cid j : JVal} {l : Locals} {s : Status}
    (h : step_poc cid j = .ok (some (l, s))) : s = classify l.pl := by
  unfold step_poc at h
  repeat' split at h
  all_goals try simp_all
  exact (poc_branch_spec h).1

/-- A message dispatched to the contract branch that breaks the loop
carries a status classified from the new profit. -/
theorem step_contract_status {cid j : JVal} {l : Locals} {s : Status}
    (h : step_contract cid j = .ok (some (l, s))) : s = classify l.pl := by
  unfold step_contract at h
  repeat' split at h
  all_goals try simp_all
  exact (contract_branch_spec h).1

/-- A message dispatched to the sell branch that breaks the loop carries a
status classified from the new profit. -/
theorem step_sell_status {j : JVal} {l0 l : Locals} {s : Status}
    (h : step_sell j l0 = .ok (some (l, s))) : s = classify l.pl := by
  unfold step_sell at h
  repeat' split at h
  all_goals try simp_all
  exact (sell_branch_spec (by assumption)).1

/-- When the settlement wait loop runs out of events (the timeout), the
locals are exactly the ones it started from. -/
theorem settle_loop_unknown (cid : JVal) : ∀ (evs : List RawRecv) (l0 l : Locals),
    settle_loop cid evs l0 = .ok (l, .Unknown) → l = l0 := by
  intro evs
  induction evs with
  | nil =>
    intro l0 l h
    unfold settle_loop at h
    simp_all
  | cons e rest ih =>
    intro l0 l h
    cases e with
    | exn => exact ih l0 l h
    | parseFail => exact ih l0 l h
    | val j =>
      unfold settle_loop at h
      repeat' split at h
      all_goals try simp_all
      · exact absurd (step_poc_status (by assumption)).symm (classify_ne_unknown _)
      · exact absurd (step_contract_status (by assumption)).symm (classify_ne_unknown _)
      · exact absurd (step_sell_status (by assumption)).symm (classify_ne_unknown _)
      · exact ih l0 l h

/-- Any status the settlement wait loop ends with is either the untouched
`Unknown` (timeout) or the classification of the profit it recorded. -/
theorem settle_loop_status (cid : JVal) : ∀ (evs : List RawRecv) (l0 l : Locals) (s : Status),
    settle_loop cid evs l0 = .ok (l, s) → s = .Unknown ∨ s = classify l.pl := by
  intro evs
  induction evs with
  | nil =>
    intro l0 l s h
    unfold settle_loop at h
    simp_all
  | cons e rest ih =>
    intro l0 l s h
    cases e with
    | exn => exact ih l0 l s h
    | parseFail => exact ih l0 l s h
    | val j =>
      unfold settle_loop at h
      repeat' split at h
      all_goals try simp_all
      · exact Or.inr (step_poc_status (by assumption))
      · exact Or.inr (step_contract_status (by assumption))
      · exact Or.inr (step_sell_status (by assumption))
      · exact ih l0 l s h

/-- Every normal return of the pre-settlement stages records a failure
outcome built from the untouched locals (entry "-", payout 0, pl 0), the
full requested stake, the trade number, and one of the three
pre-settlement error statuses. -/
theorem stages123_ret_spec {tok sym ct : String} {stake : ℚ} {digit : ℤ} {tn : ℕ}
    {inp : TradeInput} {sent : List SentMsg} {t : Txn}
    (h : stages123 tok sym ct stake digit tn inp = (sent, .ret t)) :
    t.trade_no = .num tn ∧ t.stake = stake ∧ t.entry = .jstr "-" ∧ t.exit = .jstr "-"
      ∧ t.payout = 0 ∧ t.pl = 0
      ∧ ((∃ e, t.status = .AuthError e) ∨ (∃ e, t.status = .ProposalError e)
          ∨ (∃ e, t.status = .BuyError e)) := by
  unfold stages123 at h
  repeat' split at h
  all_goals try simp_all
  all_goals
    obtain ⟨h1, h2⟩ := h
  all_goals
    subst h2
  all_goals
    simp [mk_txn, initLocals]

/-- Each run of the trade worker appends exactly one outcome record, whose
trade number, stake and status classification follow the recorded
profit/loss; an exception escaping the body always surfaces as the
`Exception` status. -/
theorem trade_thread_spec (tok sym ct : String) (stake : ℚ) (digit : ℤ) (tn : ℕ)
    (inp : TradeInput) :
    ∃ t : Txn,
      (trade_thread tok sym ct stake digit tn inp).2 = [t]
      ∧ t.trade_no = .num tn
      ∧ t.stake = stake
      ∧ isMarker t = false
      ∧ isStopped t = false
      ∧ (t.status = .Win → 0 < t.pl)
      ∧ (t.status = .Loss → t.pl < 0)
      ∧ (t.status = .Even → t.pl = 0)
      ∧ (t.status = .NoSettlement → t.payout = 0 ∧ t.pl = 0)
      ∧ (∀ l, (trade_body tok sym ct stake digit tn inp).2.2 = some l →
          t.status = Status.Exception) := by
  rcases hs : stages123 tok sym ct stake digit tn inp with ⟨sent, ctl⟩
  cases ctl with
  | ret t =>
    obtain ⟨h1, h2, h3, h4, h5, h6, h7⟩ := stages123_ret_spec hs
    refine ⟨t, ?_, h1, h2, ?_, ?_, ?_, ?_, ?_, ?_, ?_⟩
    · simp [trade_thread, trade_body, hs]
    · simp [isMarker, h1]
    · rcases h7 with ⟨e, he⟩ | ⟨e, he⟩ | ⟨e, he⟩ <;> simp [isStopped, he]
    · intro hw; rcases h7 with ⟨e, he⟩ | ⟨e, he⟩ | ⟨e, he⟩ <;> simp_all
    · intro hw; rcases h7 with ⟨e, he⟩ | ⟨e, he⟩ | ⟨e, he⟩ <;> simp_all
    · intro hw; rcases h7 with ⟨e, he⟩ | ⟨e, he⟩ | ⟨e, he⟩ <;> simp_all
    · intro _; exact ⟨h5, h6⟩
    · intro l hl; simp [trade_body, hs] at hl
  | exn l =>
    refine ⟨mk_txn tn stake l Status.Exception, ?_, rfl, rfl, rfl, rfl, ?_, ?_, ?_, ?_, ?_⟩
    · simp [trade_thread, trade_body, hs]
    · intro hw; simp [mk_txn] at hw
    · intro hw; simp [mk_txn] at hw
    · intro hw; simp [mk_txn] at hw
    · intro hw; simp [mk_txn] at hw
    · intro l' _; rfl
  | next cid =>
    rcases hl : settle_loop cid inp.settleEvents initLocals with l | ⟨l, s⟩
    · refine ⟨mk_txn tn stake l Status.Exception, ?_, rfl, rfl, rfl, rfl, ?_, ?_, ?_, ?_, ?_⟩
      · simp [trade_thread, trade_body, hs, hl]
      · intro hw; simp [mk_txn] at hw
      · intro hw; simp [mk_txn] at hw
      · intro hw; simp [mk_txn] at hw
      · intro hw; simp [mk_txn] at hw
      · intro l' _; rfl
    · rcases settle_loop_status cid inp.settleEvents initLocals l s hl with hu | hc
      · subst hu
        have hinit : l = initLocals := settle_loop_unknown cid inp.settleEvents initLocals l hl
        refine ⟨mk_txn tn stake l Status.NoSettlement, ?_, rfl, rfl, rfl, rfl, ?_, ?_, ?_, ?_, ?_⟩
        · simp [trade_thread, trade_body, hs, hl]
        · intro hw; simp [mk_txn] at hw
        · intro hw; simp [mk_txn] at hw
        · intro hw; simp [mk_txn] at hw
        · intro _; subst hinit; exact ⟨rfl, rfl⟩
        · intro l' hl'; simp [trade_body, hs, hl] at hl'
      · have hne : s ≠ .Unknown := by rw [hc]; exact classify_ne_unknown _
        refine ⟨mk_txn tn stake l s, ?_, rfl, rfl, rfl, ?_, ?_, ?_, ?_, ?_, ?_⟩
        · cases s <;>
            first
            | exact absurd rfl hne
            | simp [trade_thread, trade_body, hs, hl]
        · rw [hc]
          unfold classify
          split_ifs <;> rfl
        · intro hw
          have : classify l.pl = .Win := by rw [← hc]; exact hw
          exact (classify_win_iff l.pl).1 this
        · intro hw
          have : classify l.pl = .Loss := by rw [← hc]; exact hw
          exact (classify_loss_iff l.pl).1 this
        · intro hw
          have : classify l.pl = .Even := by rw [← hc]; exact hw
          exact (classify_even_iff l.pl).1 this
        · intro hw
          have : classify l.pl = .NoSettlement := by rw [← hc]; exact hw
          unfold classify at this
          split_ifs at this <;> simp_all
        · intro l' hl'
          cases s <;> simp [trade_body, hs, hl] at hl'

/-- Recording appends the record at the end of the log. -/
theorem add_transaction_transactions (st : SessionState) (tr : Txn) :
    (add_transaction st tr).transactions = st.transactions ++ [tr] := rfl

/-- Folding a list of records over the log appends them in order. -/
theorem foldl_add_transactions : ∀ (ts : List Txn) (st : SessionState),
    (ts.foldl add_transaction st).transactions = st.transactions ++ ts := by
  intro ts
  induction ts with
  | nil => intro st; simp
  | cons t ts ih =>
    intro st
    rw [List.foldl_cons, ih, add_transaction_transactions]
    simp

/-- Folding a list of records over the statistics adds the stake, payout
and profit sums and counts the strictly positive and strictly negative
profits into wins and losses. -/
theorem foldl_add_stats : ∀ (ts : List Txn) (st : SessionState),
    ((ts.foldl add_transaction st).stats.stake_total
        = st.stats.stake_total + (ts.map Txn.stake).sum)
    ∧ ((ts.foldl add_transaction st).stats.payout_total
        = st.stats.payout_total + (ts.map Txn.payout).sum)
    ∧ ((ts.foldl add_transaction st).stats.profit
        = st.stats.profit + (ts.map Txn.pl).sum)
    ∧ ((ts.foldl add_transaction st).stats.wins
        = st.stats.wins + ts.countP (fun t => decide (0 < t.pl)))
    ∧ ((ts.foldl add_transaction st).stats.losses
        = st.stats.losses + ts.countP (fun t => decide (t.pl < 0))) := by
  intro ts
  induction ts with
  | nil => intro st; simp
  | cons t ts ih =>
    intro st
    obtain ⟨h1, h2, h3, h4, h5⟩ := ih (add_transaction st t)
    rw [List.foldl_cons]
    refine ⟨?_, ?_, ?_, ?_, ?_⟩
    · rw [h1]; simp [add_transaction]; ring
    · rw [h2]; simp [add_transaction]; ring
    · rw [h3]; simp [add_transaction]; ring
    · rw [h4]; simp [add_transaction, List.countP_cons]
      split_ifs with hp <;> simp_all <;> omega
    · rw [h5]; simp [add_transaction, List.countP_cons]
      split_ifs with hp <;> simp_all <;> omega

/-- A numeric map that vanishes on markers sums the same over the whole
log and over the trade outcomes alone. -/
theorem sum_map_filter_marker (f : Txn → ℚ) : ∀ ts : List Txn,
    (∀ t ∈ ts, isMarker t = true → f t = 0) →
    (ts.map f).sum = ((ts.filter (fun t => !isMarker t)).map f).sum := by
  intro ts
  induction ts with
  | nil => intro _; simp
  | cons t ts ih =>
    intro h
    have hrest := ih (fun u hu hm => h u (List.mem_cons_of_mem t hu) hm)
    by_cases hm : isMarker t
    · simp [List.filter_cons, hm, h t (List.mem_cons_self t ts) hm, hrest]
    · simp [List.filter_cons, hm, hrest]

/-- A predicate false on markers counts the same over the whole log and
over the trade outcomes alone. -/
theorem countP_filter_marker (p : Txn → Bool) : ∀ ts : List Txn,
    (∀ t ∈ ts, isMarker t = true → p t = false) →
    ts.countP p = (ts.filter (fun t => !isMarker t)).countP p := by
  intro ts
  induction ts with
  | nil => intro _; simp
  | cons t ts ih =>
    intro h
    have hrest := ih (fun u hu hm => h u (List.mem_cons_of_mem t hu) hm)
    by_cases hm : isMarker t
    · simp [List.filter_cons, hm, List.countP_cons, h t (List.mem_cons_self t ts) hm, hrest]
    · simp [List.filter_cons, hm, List.countP_cons, hrest]

/-- Wins and losses are counts of disjoint sign conditions, so their sum
never exceeds the number of records counted. -/
theorem countP_pos_add_countP_neg_le : ∀ ts : List Txn,
    ts.countP (fun t => decide (0 < t.pl)) + ts.countP (fun t => decide (t.pl < 0))
      ≤ ts.length := by
  intro ts
  induction ts with
  | nil => simp
  | cons t ts ih =>
    simp only [List.countP_cons, List.length_cons]
    rcases lt_trichotomy t.pl 0 with h | h | h
    · have h1 : ¬ (0 < t.pl) := by linarith
      simp [h, h1]; omega
    · simp [h]; omega
    · have h1 : ¬ (t.pl < 0) := by linarith
      simp [h, h1]; omega

/-- A key that looks up to a value is found by the corresponding
existence test. -/
theorem lookup_some_any {fs : List (String × JVal)} {k : String} {v : JVal}
    (h : fs.lookup k = some v) : fs.any (fun p => p.1 == k) = true := by
  induction fs with
  | nil => simp [List.lookup] at h
  | cons p fs ih =>
    rcases p with ⟨a, b⟩
    by_cases hk : k = a
    · subst hk
      simp
    · have hkb : (k == a) = false := by simp [hk]
      have hab : (a == k) = false := by
        simp only [beq_eq_false_iff_ne, ne_eq]
        exact fun hn => hk hn.symm
      rw [List.lookup_cons] at h
      simp only [hkb] at h
      simp [hab, ih h]

/-- The trade loop of a batch appends one non-marker outcome per trade
number, each carrying the full stake. -/
theorem foldl_trades_txns (env : BatchEnv) (tok sym ct : String) (stake : ℚ) (digit : ℤ) :
    ∀ (idx : List ℕ) (st : SessionState), ∃ mids : List Txn,
      ((idx.foldl
          (fun s i =>
            ((trade_thread tok sym ct stake digit i (env.inputs i)).2).foldl
              add_transaction s) st).transactions
        = st.transactions ++ mids)
      ∧ mids.length = idx.length
      ∧ ∀ t ∈ mids, isMarker t = false ∧ isStopped t = false ∧ t.stake = stake := by
  intro idx
  induction idx with
  | nil => intro st; exact ⟨[], by simp, rfl, by simp⟩
  | cons i idx ih =>
    intro st
    obtain ⟨t, ht, _, hstk, hm, hstop, _⟩ := trade_thread_spec tok sym ct stake digit i (env.inputs i)
    obtain ⟨mids, h1, h2, h3⟩ :=
      ih (((trade_thread tok sym ct stake digit i (env.inputs i)).2).foldl add_transaction st)
    refine ⟨t :: mids, ?_, by simp [h2], ?_⟩
    · rw [List.foldl_cons, h1, ht]
      simp [add_transaction_transactions]
    · intro u hu
      rcases List.mem_cons.1 hu with hu | hu
      · subst hu; exact ⟨hm, hstop, hstk⟩
      · exact h3 u hu

/-- The generalised batch appends the start marker, one outcome per trade,
then the end marker. -/
theorem run_bulk_batchN_txns (n : ℕ) (env : BatchEnv) (tok sym ct : String)
    (stake : ℚ) (digit : ℤ) (st : SessionState) :
    ∃ mids : List Txn,
      (run_bulk_batchN n env tok sym ct stake digit st).transactions
        = st.transactions ++ batch_start_txn env.ts1 :: (mids ++ [batch_end_txn env.ts2])
      ∧ mids.length = n
      ∧ ∀ t ∈ mids, isMarker t = false ∧ isStopped t = false ∧ t.stake = stake := by
  obtain ⟨mids, h1, h2, h3⟩ :=
    foldl_trades_txns env tok sym ct stake digit (List.range' 1 n)
      (add_transaction st (batch_start_txn env.ts1))
  refine ⟨mids, ?_, by simp [h2], h3⟩
  unfold run_bulk_batchN
  rw [add_transaction_transactions, h1, add_transaction_transactions]
  simp

/-- The worker's sent requests are exactly those of its pre-settlement
stages (the settlement wait sends nothing). -/
theorem trade_thread_sent (tok sym ct : String) (stake : ℚ) (digit : ℤ) (tn : ℕ)
    (inp : TradeInput) :
    (trade_thread tok sym ct stake digit tn inp).1
      = (stages123 tok sym ct stake digit tn inp).1 := by
  rcases hs : stages123 tok sym ct stake digit tn inp with ⟨sent, ctl⟩
  cases ctl with
  | ret t => simp [trade_thread, trade_body, hs]
  | exn l => simp [trade_thread, trade_body, hs]
  | next cid =>
    rcases hl : settle_loop cid inp.settleEvents initLocals with l | ⟨l, s⟩
    · simp [trade_thread, trade_body, hs, hl]
    · cases s <;> simp [trade_thread, trade_body, hs, hl]

/-- The pre-settlement stages send at most one proposal request, and any
proposal they send is exactly the built one. -/
theorem stages123_sentProposals (tok sym ct : String) (stake : ℚ) (digit : ℤ) (tn : ℕ)
    (inp : TradeInput) :
    ∃ k, k ≤ 1 ∧ sentProposals (stages123 tok sym ct stake digit tn inp).1
      = List.replicate k (build_proposal sym ct stake digit) := by
  unfold stages123
  repeat' split
  all_goals first
    | exact ⟨0, by omega, rfl⟩
    | exact ⟨1, by omega, rfl⟩

/-- C1: every execution of the trade worker appends exactly one
TradeOutcome record to the transaction log, on every path (auth failure,
proposal failure, buy failure, settlement, settlement timeout, or escaped
exception); the worker is a total function of its trace — it never
propagates an exception — and whenever an exception escapes the body the
single recorded outcome has status `Exception`. -/
theorem C1_exactly_one_outcome (tok sym ct : String) (stake : ℚ) (digit : ℤ)
    (tn : ℕ) (inp : TradeInput) :
    ∃ t : Txn,
      (trade_thread tok sym ct stake digit tn inp).2 = [t]
      ∧ (∀ l, (trade_body tok sym ct stake digit tn inp).2.2 = some l →
          t.status = Status.Exception) := by
  obtain ⟨t, h1, _, _, _, _, _, _, _, _, h10⟩ :=
    trade_thread_spec tok sym ct stake digit tn inp
  exact ⟨t, h1, h10⟩

/-- C1 witness: on the trace whose connect call raises, the worker
appends exactly one record and its status is `Exception`. -/
theorem C1_witness :
    ∃ t : Txn,
      (trade_thread "tok" "R_10" "DIGITMATCH" 1 0 1 connFailInput).2 = [t]
      ∧ t.status = Status.Exception := by
  obtain ⟨t, h1, h2⟩ :=
    C1_exactly_one_outcome "tok" "R_10" "DIGITMATCH" 1 0 1 connFailInput
  exact ⟨t, h1, h2 initLocals rfl⟩

/-- C10: every recorded outcome of an initiated trade — including the
AuthError, ProposalError, BuyError and Exception failure paths, none of
which completed a purchase — carries the full requested stake, so
recording it increases `stake_total` by exactly that stake. -/
theorem C10_full_stake_charged (tok sym ct : String) (stake : ℚ) (digit : ℤ)
    (tn : ℕ) (inp : TradeInput) :
    ∃ t : Txn,
      (trade_thread tok sym ct stake digit tn inp).2 = [t]
      ∧ t.stake = stake
      ∧ ∀ st : SessionState,
          (((trade_thread tok sym ct stake digit tn inp).2).foldl
              add_transaction st).stats.stake_total
            = st.stats.stake_total + stake := by
  obtain ⟨t, h1, _, h3, _⟩ := trade_thread_spec tok sym ct stake digit tn inp
  refine ⟨t, h1, h3, ?_⟩
  intro st
  rw [h1]
  simp [add_transaction, h3]

/-- C5: a settlement wait that times out leaves the worker's locals
untouched, and the worker then records a `NoSettlement` outcome whose
payout and profit/loss are 0 — its status is `NoSettlement`, never `Win`
or `Loss`. -/
theorem C5_timeout_records_no_settlement :
    (∀ (cid : JVal) (evs : List RawRecv) (l0 l : Locals),
        settle_loop cid evs l0 = .ok (l, .Unknown) → l = l0)
    ∧ (∀ (tok sym ct : String) (stake : ℚ) (digit : ℤ) (tn : ℕ) (inp : TradeInput)
        (sent : List SentMsg) (cid : JVal) (l : Locals),
        stages123 tok sym ct stake digit tn inp = (sent, .next cid) →
        settle_loop cid inp.settleEvents initLocals = .ok (l, .Unknown) →
        (trade_thread tok sym ct stake digit tn inp).2
          = [mk_txn tn stake initLocals .NoSettlement])
    ∧ (∀ (tn : ℕ) (stake : ℚ),
        (mk_txn tn stake initLocals .NoSettlement).payout = 0
        ∧ (mk_txn tn stake initLocals .NoSettlement).pl = 0
        ∧ (mk_txn tn stake initLocals .NoSettlement).status = .NoSettlement
        ∧ (mk_txn tn stake initLocals .NoSettlement).status ≠ .Win
        ∧ (mk_txn tn stake initLocals .NoSettlement).status ≠ .Loss) := by
  refine ⟨settle_loop_unknown, ?_, ?_⟩
  · intro tok sym ct stake digit tn inp sent cid l hstage hloop
    have hinit : l = initLocals :=
      settle_loop_unknown cid inp.settleEvents initLocals l hloop
    subst hinit
    simp [trade_thread, trade_body, hstage, hloop]
  · intro tn stake
    refine ⟨rfl, rfl, rfl, by simp [mk_txn], by simp [mk_txn]⟩

/-- C5 witness: on a trace whose settlement wait sees no event, the
worker records the `NoSettlement` outcome with zero payout and
profit/loss. -/
theorem C5_witness :
    (trade_thread "tok" "R_10" "DIGITODD" 1 0 1 noSettleInput).2
      = [mk_txn 1 1 initLocals .NoSettlement] :=
  C5_timeout_records_no_settlement.2.1 "tok" "R_10" "DIGITODD" 1 0 1 noSettleInput
    [SentMsg.authReq "tok",
     SentMsg.proposalReq (build_proposal "R_10" "DIGITODD" 1 0),
     SentMsg.buyReq (buy_req (.jstr "P1"))] (.jstr "C1") initLocals rfl rfl

/-- C6: when the authorization response is an object carrying an `error`
field, the worker records an `AuthError` outcome with payout 0 and
returns without ever sending a proposal (quote) request. -/
theorem C6_auth_error_stops_before_quote (tok sym ct : String) (stake : ℚ) (digit : ℤ)
    (tn : ℕ) (inp : TradeInput) (fs : List (String × JVal)) (e : JVal)
    (hc : inp.connectErr = false) (hse : inp.authSendErr = false)
    (hr : inp.authRecv = .val (.jobj fs)) (hl : fs.lookup "error" = some e) :
    (trade_thread tok sym ct stake digit tn inp).2
      = [mk_txn tn stake initLocals (.AuthError e)]
    ∧ (trade_thread tok sym ct stake digit tn inp).1 = [SentMsg.authReq tok]
    ∧ (mk_txn tn stake initLocals (.AuthError e)).payout = 0
    ∧ sentProposals (trade_thread tok sym ct stake digit tn inp).1 = [] := by
  have hany := lookup_some_any hl
  have hbody : stages123 tok sym ct stake digit tn inp
      = ([SentMsg.authReq tok], .ret (mk_txn tn stake initLocals (.AuthError e))) := by
    unfold stages123
    rw [hc, hr]
    simp [pyIn, pySub, hany, hl, hse]
  refine ⟨?_, ?_, rfl, ?_⟩ <;>
    simp [trade_thread, trade_body, hbody, sentProposals]

/-- C6 witness: a concrete rejected authorization records `AuthError`
and sends no proposal. -/
theorem C6_witness :
    (trade_thread "tok" "R_10" "DIGITMATCH" 1 0 1 authErrInput).2
      = [mk_txn 1 1 initLocals (Status.AuthError
          (.jobj [("code", .jstr "InvalidToken"), ("message", .jstr "bad token")]))]
    ∧ sentProposals (trade_thread "tok" "R_10" "DIGITMATCH" 1 0 1 authErrInput).1 = [] := by
  have h := C6_auth_error_stops_before_quote "tok" "R_10" "DIGITMATCH" 1 0 1 authErrInput
    [("error", .jobj [("code", .jstr "InvalidToken"), ("message", .jstr "bad token")])]
    (.jobj [("code", .jstr "InvalidToken"), ("message", .jstr "bad token")])
    rfl rfl rfl (by simp [List.lookup])
  exact ⟨h.1, h.2.2.2⟩

/-- C2: after any sequence of recorded outcomes the aggregate statistics
equal the fold of those outcomes: `stake_total`, `payout_total` and
`profit` are the sums of the stake, payout and pl fields over the
non-marker outcomes (the markers carry zeros), `wins` and `losses` count
the strictly positive and strictly negative profits (pl = 0 records are
counted in neither), and `wins + losses` never exceeds the number of
trade outcomes. -/
theorem C2_stats_equal_fold (ts : List Txn)
    (hm : ∀ t ∈ ts, isMarker t = true → t.stake = 0 ∧ t.payout = 0 ∧ t.pl = 0) :
    ((ts.foldl add_transaction init_state).stats.stake_total
        = ((ts.filter (fun t => !isMarker t)).map Txn.stake).sum)
    ∧ ((ts.foldl add_transaction init_state).stats.payout_total
        = ((ts.filter (fun t => !isMarker t)).map Txn.payout).sum)
    ∧ ((ts.foldl add_transaction init_state).stats.profit
        = ((ts.filter (fun t => !isMarker t)).map Txn.pl).sum)
    ∧ ((ts.foldl add_transaction init_state).stats.wins
        = (ts.filter (fun t => !isMarker t)).countP (fun t => decide (0 < t.pl)))
    ∧ ((ts.foldl add_transaction init_state).stats.losses
        = (ts.filter (fun t => !isMarker t)).countP (fun t => decide (t.pl < 0)))
    ∧ ((ts.foldl add_transaction init_state).stats.wins
          + (ts.foldl add_transaction init_state).stats.losses
        ≤ (ts.filter (fun t => !isMarker t)).length) := by
  obtain ⟨h1, h2, h3, h4, h5⟩ := foldl_add_stats ts init_state
  have hs1 := sum_map_filter_marker Txn.stake ts (fun t ht hm' => (hm t ht hm').1)
  have hs2 := sum_map_filter_marker Txn.payout ts (fun t ht hm' => (hm t ht hm').2.1)
  have hs3 := sum_map_filter_marker Txn.pl ts (fun t ht hm' => (hm t ht hm').2.2)
  have hc1 := countP_filter_marker (fun t => decide (0 < t.pl)) ts
    (fun t ht hm' => by have hz := (hm t ht hm').2.2; simp [hz])
  have hc2 := countP_filter_marker (fun t => decide (t.pl < 0)) ts
    (fun t ht hm' => by have hz := (hm t ht hm').2.2; simp [hz])
  refine ⟨?_, ?_, ?_, ?_, ?_, ?_⟩
  · rw [h1, ← hs1]; simp [init_state, init_stats]
  · rw [h2, ← hs2]; simp [init_state, init_stats]
  · rw [h3, ← hs3]; simp [init_state, init_stats]
  · rw [h4, hc1]; simp [init_state, init_stats]
  · rw [h5, hc2]; simp [init_state, init_stats]
  · rw [h4, h5, hc1, hc2]
    simp only [init_state, init_stats, Nat.zero_add]
    exact countP_pos_add_countP_neg_le _

/-- C2 witness: a concrete log holding one winning trade outcome and one
batch marker satisfies the fold equations. -/
theorem C2_witness :
    let ts : List Txn :=
      [mk_txn 1 1 { payout := 2, pl := 1 } .Win, batch_start_txn "10:00:00"]
    ((ts.foldl add_transaction init_state).stats.stake_total
        = ((ts.filter (fun t => !isMarker t)).map Txn.stake).sum)
    ∧ ((ts.foldl add_transaction init_state).stats.payout_total
        = ((ts.filter (fun t => !isMarker t)).map Txn.payout).sum)
    ∧ ((ts.foldl add_transaction init_state).stats.profit
        = ((ts.filter (fun t => !isMarker t)).map Txn.pl).sum)
    ∧ ((ts.foldl add_transaction init_state).stats.wins
        = (ts.filter (fun t => !isMarker t)).countP (fun t => decide (0 < t.pl)))
    ∧ ((ts.foldl add_transaction init_state).stats.losses
        = (ts.filter (fun t => !isMarker t)).countP (fun t => decide (t.pl < 0)))
    ∧ ((ts.foldl add_transaction init_state).stats.wins
          + (ts.foldl add_transaction init_state).stats.losses
        ≤ (ts.filter (fun t => !isMarker t)).length) := by
  exact C2_stats_equal_fold
    [mk_txn 1 1 { payout := 2, pl := 1 } .Win, batch_start_txn "10:00:00"]
    (by
      intro t ht hmk
      rcases List.mem_cons.1 ht with rfl | ht
      · simp [isMarker, mk_txn] at hmk
      · rcases List.mem_singleton.1 ht with rfl
        exact ⟨rfl, rfl, rfl⟩)

/-- C3 counterexample: a channel-level sell confirmation whose payload
carries sell price 5 and buy price 3 is recorded with payout 5 and
profitLoss 5 (and status Win), not payout minus buy price (which would be
2): the claim's equation fails on the sell branch. -/
theorem C3_counterexample :
    sell_branch (.jobj [("sell_price", .jnum 5), ("buy_price", .jnum 3)]) initLocals
      = .ok ({ initLocals with payout := 5, pl := 5 }, .Win)
    ∧ getFloat0 (.jobj [("sell_price", .jnum 5), ("buy_price", .jnum 3)]) "buy_price"
      = .ok 3
    ∧ (trade_thread "tok" "R_10" "DIGITODD" 1 0 1 sellCexInput).2
      = [{ trade_no := .num 1, entry := .jstr "-", exit := .jstr "-",
           stake := 1, payout := 5, pl := 5, status := .Win }]
    ∧ ¬ ((5 : ℚ) = 5 - 3) := by
  refine ⟨rfl, rfl, rfl, by norm_num⟩

/-- C3 (amended): an id-matched open-contract settlement and an
id-matched contract settlement record `profitLoss = payout − buy_price`;
a channel-level sell confirmation records `profitLoss = payout` (the sell
price, or the profit field when the sell price is absent), ignoring any
buy price; in all three cases the status is Win if profitLoss > 0, Loss
if profitLoss < 0, and Even otherwise, and every status produced by the
settlement wait is either the timeout's `Unknown` or that
classification. -/
theorem C3_settlement_profit_rules :
    (∀ (cid poc : JVal) (l : Locals) (s : Status),
        poc_branch cid poc = .ok (some (l, s)) →
        s = classify l.pl
        ∧ ∃ bp, getFloat0 poc "buy_price" = .ok bp
            ∧ getFloat0 poc "sell_price" = .ok l.payout ∧ l.pl = l.payout - bp)
    ∧ (∀ (cid c : JVal) (l : Locals) (s : Status),
        contract_branch cid c = .ok (some (l, s)) →
        s = classify l.pl
        ∧ ∃ bp, getFloat0 c "buy_price" = .ok bp
            ∧ getFloat0 c "sell_price" = .ok l.payout ∧ l.pl = l.payout - bp)
    ∧ (∀ (sm : JVal) (l0 l : Locals) (s : Status),
        sell_branch sm l0 = .ok (l, s) → s = classify l.pl ∧ l.pl = l.payout)
    ∧ (∀ q : ℚ, (classify q = .Win ↔ 0 < q) ∧ (classify q = .Loss ↔ q < 0)
        ∧ (classify q = .Even ↔ q = 0))
    ∧ (∀ (cid : JVal) (evs : List RawRecv) (l0 l : Locals) (s : Status),
        settle_loop cid evs l0 = .ok (l, s) → s = .Unknown ∨ s = classify l.pl) := by
  refine ⟨?_, ?_, ?_, ?_, settle_loop_status⟩
  · intro cid poc l s h; exact poc_branch_spec h
  · intro cid c l s h; exact contract_branch_spec h
  · intro sm l0 l s h
    obtain ⟨h1, h2, _⟩ := sell_branch_spec h
    exact ⟨h1, h2⟩
  · intro q
    exact ⟨classify_win_iff q, classify_loss_iff q, classify_even_iff q⟩

/-- C3 witness: a concrete sold open-contract update with buy price 2 and
sell price 5 settles with payout 5, profitLoss 5 − 2 and status Win. -/
theorem C3_witness :
    Status.Win = classify (5 - 2 : ℚ)
    ∧ ∃ bp, getFloat0 (.jobj [("contract_id", .jstr "C1"), ("is_sold", .jbool true),
        ("buy_price", .jnum 2), ("sell_price", .jnum 5)]) "buy_price" = .ok bp
      ∧ getFloat0 (.jobj [("contract_id", .jstr "C1"), ("is_sold", .jbool true),
          ("buy_price", .jnum 2), ("sell_price", .jnum 5)]) "sell_price" = .ok (5 : ℚ)
      ∧ (5 - 2 : ℚ) = 5 - bp := by
  have h := C3_settlement_profit_rules.1 (.jstr "C1")
    (.jobj [("contract_id", .jstr "C1"), ("is_sold", .jbool true),
      ("buy_price", .jnum 2), ("sell_price", .jnum 5)])
    { entry := .jstr "-", exit := .jstr "-", payout := 5, pl := 5 - 2 } (.Win)
    (by
      simp [poc_branch, pyGet, pyGetD, getFloat0, pyFloat, pyEq, pyTruthy, JVal.norm,
        JVal.beq, classify, strContains, List.lookup]
      norm_num)
  exact h

/-- C4: the batch coordinator (the source fixes the size at 10 via
`range(1, 11)`; `run_bulk_batch = run_bulk_batchN 10`) appends, for every
size N ≥ 1, exactly N trade-outcome records, preceded by the batch-start
marker (appended before the first trade is launched) and followed by the
batch-end marker (appended after all joins), regardless of how many
trades fail. -/
theorem C4_batch_appends_n_outcomes :
    run_bulk_batch = run_bulk_batchN 10
    ∧ ∀ n : ℕ, 1 ≤ n →
      ∀ (env : BatchEnv) (tok sym ct : String) (stake : ℚ) (digit : ℤ)
        (st : SessionState),
      ∃ mids : List Txn,
        (run_bulk_batchN n env tok sym ct stake digit st).transactions
          = st.transactions
            ++ batch_start_txn env.ts1 :: (mids ++ [batch_end_txn env.ts2])
        ∧ mids.length = n
        ∧ ∀ t ∈ mids, isMarker t = false := by
  refine ⟨rfl, ?_⟩
  intro n _ env tok sym ct stake digit st
  obtain ⟨mids, h1, h2, h3⟩ := run_bulk_batchN_txns n env tok sym ct stake digit st
  exact ⟨mids, h1, h2, fun t ht => (h3 t ht).1⟩

/-- C4 witness: a batch of the source's size 10 in which every trade
fails to connect still appends ten outcome records between the two
markers. -/
theorem C4_witness :
    ∃ mids : List Txn,
      (run_bulk_batchN 10 connFailEnv "tok" "R_10" "DIGITMATCH" 1 0 init_state).transactions
        = init_state.transactions
          ++ batch_start_txn connFailEnv.ts1 :: (mids ++ [batch_end_txn connFailEnv.ts2])
      ∧ mids.length = 10
      ∧ ∀ t ∈ mids, isMarker t = false :=
  C4_batch_appends_n_outcomes.2 10 (by norm_num) connFailEnv "tok" "R_10" "DIGITMATCH"
    1 0 init_state

/-- C7: the continuous runner checks the run flag only at the top of each
loop iteration — each true read runs one complete batch — and the first
false read exits the loop and appends exactly one terminal stopped
marker, after the in-flight batch has finished: the appended log is whole
batch blocks followed by the stop record, never a stop mid-batch. -/
theorem C7_stop_marker_after_full_batch (tok sym ct : String) (stake : ℚ) (digit : ℤ) :
    ∀ (k : ℕ) (envs : ℕ → BatchEnv) (st : SessionState),
      ∃ blocks : List (List Txn),
        blocks.length = k
        ∧ (∀ b ∈ blocks, IsBatchBlock b ∧ ∀ t ∈ b, isStopped t = false)
        ∧ (continuous_runner tok sym ct stake digit k envs st).transactions
            = st.transactions ++ blocks.join ++ [stopped_txn] := by
  intro k
  induction k with
  | zero =>
    intro envs st
    refine ⟨[], rfl, by simp, ?_⟩
    simp [continuous_runner, add_transaction_transactions]
  | succ k ih =>
    intro envs st
    obtain ⟨mids, h1, h2, h3⟩ := run_bulk_batchN_txns 10 (envs 0) tok sym ct stake digit st
    obtain ⟨blocks, hb1, hb2, hb3⟩ :=
      ih (fun i => envs (i + 1)) (run_bulk_batch (envs 0) tok sym ct stake digit st)
    refine ⟨(batch_start_txn (envs 0).ts1 :: (mids ++ [batch_end_txn (envs 0).ts2])) :: blocks,
      by simp [hb1], ?_, ?_⟩
    · intro b hb
      rcases List.mem_cons.1 hb with rfl | hb
      · refine ⟨⟨(envs 0).ts1, (envs 0).ts2, mids, rfl, fun t ht => (h3 t ht).1⟩, ?_⟩
        intro t ht
        rcases List.mem_cons.1 ht with rfl | ht
        · rfl
        · rcases List.mem_append.1 ht with ht | ht
          · exact (h3 t ht).2.1
          · rw [List.mem_singleton.1 ht]; rfl
      · exact hb2 b hb
    · show (continuous_runner tok sym ct stake digit k (fun i => envs (i + 1))
          (run_bulk_batch (envs 0) tok sym ct stake digit st)).transactions = _
      rw [hb3]
      have hbatch : (run_bulk_batch (envs 0) tok sym ct stake digit st).transactions
          = st.transactions
            ++ (batch_start_txn (envs 0).ts1 :: (mids ++ [batch_end_txn (envs 0).ts2])) := h1
      rw [hbatch]
      simp

/-- C8: the proposal request built from a trade request carries a
`barrier` field exactly when the contract type is one of the
digit-threshold types DIGITMATCH, DIGITDIFF, DIGITOVER, DIGITUNDER — for
every other contract type the field is absent — and every proposal the
worker actually sends is exactly that built request. -/
theorem C8_barrier_iff_digit_type (sym ct : String) (stake : ℚ) (digit : ℤ)
    (tok : String) (tn : ℕ) (inp : TradeInput) :
    ((build_proposal sym ct stake digit).hasField "barrier" = true
      ↔ ct ∈ DIGIT_BARRIER_TYPES)
    ∧ ∃ k, k ≤ 1 ∧ sentProposals (trade_thread tok sym ct stake digit tn inp).1
        = List.replicate k (build_proposal sym ct stake digit) := by
  constructor
  · unfold build_proposal JVal.hasField
    by_cases h : DIGIT_BARRIER_TYPES.contains ct
    · have hmem : ct ∈ DIGIT_BARRIER_TYPES := by simpa using h
      simp [h, hmem]
    · have hmem : ct ∉ DIGIT_BARRIER_TYPES := fun hin => h (by simpa using hin)
      simp [h, hmem]
  · rw [trade_thread_sent]
    exact stages123_sentProposals tok sym ct stake digit tn inp

/-- C9: a batch of zero trades appends only the two batch marker records
and leaves the aggregate statistics unchanged: each marker carries
stake 0, payout 0 and profitLoss 0, so recording a marker changes no
counter. -/
theorem C9_zero_batch_markers_neutral (env : BatchEnv) (tok sym ct : String)
    (stake : ℚ) (digit : ℤ) (st : SessionState) :
    ((run_bulk_batchN 0 env tok sym ct stake digit st).transactions
        = st.transactions ++ [batch_start_txn env.ts1, batch_end_txn env.ts2])
    ∧ (run_bulk_batchN 0 env tok sym ct stake digit st).stats = st.stats
    ∧ (∀ ts, (batch_start_txn ts).stake = 0 ∧ (batch_start_txn ts).payout = 0
        ∧ (batch_start_txn ts).pl = 0)
    ∧ (∀ ts, (batch_end_txn ts).stake = 0 ∧ (batch_end_txn ts).payout = 0
        ∧ (batch_end_txn ts).pl = 0)
    ∧ (∀ (st' : SessionState) (ts : String),
        (add_transaction st' (batch_start_txn ts)).stats = st'.stats
        ∧ (add_transaction st' (batch_end_txn ts)).stats = st'.stats) := by
  have hmarker : ∀ (st' : SessionState) (tr : Txn), tr.stake = 0 → tr.payout = 0 →
      tr.pl = 0 → (add_transaction st' tr).stats = st'.stats := by
    intro st' tr h1 h2 h3
    rcases st' with ⟨tx, ⟨a, b, c, d, e⟩⟩
    simp [add_transaction, h1, h2, h3]
  refine ⟨?_, ?_, fun ts => ⟨rfl, rfl, rfl⟩, fun ts => ⟨rfl, rfl, rfl⟩, ?_⟩
  · unfold run_bulk_batchN
    simp [add_transaction_transactions]
  · unfold run_bulk_batchN
    simp only [List.range', List.foldl_nil]
    rw [hmarker _ _ rfl rfl rfl, hmarker _ _ rfl rfl rfl]
  · intro st' ts
    exact ⟨hmarker st' _ rfl rfl rfl, hmarker st' _ rfl rfl rfl⟩

end DerivBot
